import Mathlib

/-! traQ: stamp permissions, the read-only role, and the UserGroupDeleted bot handler

A shallow embedding of

* `rbac/permission/stamp.go`  (the stamp permission declarations),
* `service/rbac/role/read.go` (the role name `Read` and its list `readPerms`),
* `service/bot/handler/ev_user_group_deleted.go` (the handler `UserGroupDeleted`),

followed by the properties proved about them.
-/

namespace TraQ

/-! ## Permissions (`rbac/permission/stamp.go`) -/

/-- A permission value.  `gorbac.NewStdPermission(id)` builds a value whose only
content is the identifier string `id`, and permissions are told apart by that
string ("identified by a unique string name"). -/
structure Permission where
  name : String
  deriving DecidableEq, Repr

namespace permission

/-- The constructor `gorbac.NewStdPermission`: wraps the identifier string. -/
def NewStdPermission (id : String) : Permission := ⟨id⟩

def GetStamp : Permission := NewStdPermission "get_stamp"
def CreateStamp : Permission := NewStdPermission "create_stamp"
def EditStamp : Permission := NewStdPermission "edit_stamp"
def DeleteStamp : Permission := NewStdPermission "delete_stamp"
def GetMessageStamp : Permission := NewStdPermission "get_message_stamp"
def AddMessageStamp : Permission := NewStdPermission "add_message_stamp"
def RemoveMessageStamp : Permission := NewStdPermission "remove_message_stamp"

/-- The `var ( ... )` block of `stamp.go`, in declaration order. -/
def stampPermissions : List Permission :=
  [GetStamp, CreateStamp, EditStamp, DeleteStamp,
   GetMessageStamp, AddMessageStamp, RemoveMessageStamp]

/-- The permission constants that `read.go` refers to and whose declarations are
not in `stamp.go` (they live in sibling files of the permission package).  Their
identifier strings are left open: every result below holds for all values. -/
structure Decls where
  GetChannel : Permission
  GetMessage : Permission
  GetChannelSubscription : Permission
  ConnectNotificationStream : Permission
  GetUser : Permission
  GetMe : Permission
  GetChannelStar : Permission
  GetUnread : Permission
  GetUserTag : Permission
  GetUserGroup : Permission
  GetMyStampHistory : Permission
  DownloadFile : Permission
  GetHeartbeat : Permission
  GetWebhook : Permission
  GetBot : Permission
  GetClipFolder : Permission
  GetStampPalette : Permission

/-- The constants of `Decls`, one entry per declaration. -/
def Decls.toList (d : Decls) : List Permission :=
  [d.GetChannel, d.GetMessage, d.GetChannelSubscription, d.ConnectNotificationStream,
   d.GetUser, d.GetMe, d.GetChannelStar, d.GetUnread, d.GetUserTag, d.GetUserGroup,
   d.GetMyStampHistory, d.DownloadFile, d.GetHeartbeat, d.GetWebhook, d.GetBot,
   d.GetClipFolder, d.GetStampPalette]

/-- The permission catalog as far as these sources see it: the stamp
declarations followed by the constants of `Decls`. -/
def catalog (d : Decls) : List Permission := stampPermissions ++ d.toList

/-- Modelled from the spec: the catalog invariant of section 4.1, "Names must be
unique" — no two declared permissions carry the same identifier string.  It
constrains the declarations of `Decls`, which are missing from the sources. -/
def UniqueNames (d : Decls) : Prop := ((catalog d).map Permission.name).Nodup

instance (d : Decls) : Decidable (UniqueNames d) := by
  unfold UniqueNames; infer_instance

/-- Modelled from the spec: `Lookup(name) -> Permission, found` of the permission
registry (section 4.1); the registry itself is missing from the sources.  The
first registered permission carrying the name is returned, `none` on a miss. -/
def Lookup (registry : List Permission) (name : String) : Option Permission :=
  registry.find? (fun p => p.name == name)

/-- A sample assignment of the constants of `Decls`, named after the convention
visible in `stamp.go` (snake case of the Go identifier). -/
def sampleDecls : Decls where
  GetChannel := NewStdPermission "get_channel"
  GetMessage := NewStdPermission "get_message"
  GetChannelSubscription := NewStdPermission "get_channel_subscription"
  ConnectNotificationStream := NewStdPermission "connect_notification_stream"
  GetUser := NewStdPermission "get_user"
  GetMe := NewStdPermission "get_me"
  GetChannelStar := NewStdPermission "get_channel_star"
  GetUnread := NewStdPermission "get_unread"
  GetUserTag := NewStdPermission "get_user_tag"
  GetUserGroup := NewStdPermission "get_user_group"
  GetMyStampHistory := NewStdPermission "get_my_stamp_history"
  DownloadFile := NewStdPermission "download_file"
  GetHeartbeat := NewStdPermission "get_heartbeat"
  GetWebhook := NewStdPermission "get_webhook"
  GetBot := NewStdPermission "get_bot"
  GetClipFolder := NewStdPermission "get_clip_folder"
  GetStampPalette := NewStdPermission "get_stamp_palette"

end permission

/-! ## The read-only role (`service/rbac/role/read.go`) -/

namespace role

open permission

/-- The constant `const Read = "read"`: the name of the read-only user role. -/
def Read : String := "read"

/-- The list `var readPerms = []permission.Permission{ ... }`, entry by entry in source
order.  `permission.GetStamp` is taken to be the declaration of `stamp.go`, the
only permission file at hand; the other seventeen entries are the constants of
`Decls`. -/
def readPerms (d : Decls) : List Permission :=
  [d.GetChannel,
   d.GetMessage,
   d.GetChannelSubscription,
   d.ConnectNotificationStream,
   d.GetUser,
   d.GetMe,
   d.GetChannelStar,
   d.GetUnread,
   d.GetUserTag,
   d.GetUserGroup,
   GetStamp,
   d.GetMyStampHistory,
   d.DownloadFile,
   d.GetHeartbeat,
   d.GetWebhook,
   d.GetBot,
   d.GetClipFolder,
   d.GetStampPalette]

end role

/-! ## Role registry and access decision (spec sections 4.2, 4.3, 6) -/

/-- Modelled from the spec: a role, "identified by a unique string name, owning a
set of Permissions"; the role type is missing from the sources. -/
structure Role where
  name : String
  perms : List Permission
  deriving DecidableEq, Repr

/-- Modelled from the spec: `DefineRole(name, permissions) -> Role` (section 4.2). -/
def DefineRole (name : String) (perms : List Permission) : Role := ⟨name, perms⟩

/-- Modelled from the spec: `Lookup(name) -> Role, found` of the role registry
(section 4.2); the registry is missing from the sources. -/
def RoleLookup (registry : List Role) (name : String) : Option Role :=
  registry.find? (fun r => r.name == name)

/-- Modelled from the spec: `HasPermission(role, permission) -> bool`, "a
set-membership check" (section 4.2). -/
def HasPermission (r : Role) (p : Permission) : Bool := decide (p ∈ r.perms)

/-- Modelled from the spec: `IsAllowed(roleName, permissionName) -> bool`
(sections 4.3 and 6), missing from the sources: "true iff permission is a member
of role's permission set"; "unknown role → deny". -/
def IsAllowed (registry : List Role) (roleName permissionName : String) : Bool :=
  match RoleLookup registry roleName with
  | none => false
  | some r => HasPermission r ⟨permissionName⟩

/-- The role `Read` as registered: its name with the list `readPerms`. -/
def readRole (d : permission.Decls) : Role := DefineRole role.Read (role.readPerms d)

/-! ## The bot event handler (`service/bot/handler/ev_user_group_deleted.go`) -/

namespace bot

/-- Go `error` values as far as the handler can observe them: an error with a
message and nothing to unwrap, or an error wrapping another one (what
`fmt.Errorf` returns for a `%w` verb).  A nil `error` is `none : Option GoError`. -/
inductive GoError where
  | base (msg : String)
  | wrap (msg : String) (inner : GoError)
  deriving DecidableEq, Repr

/-- The `Error()` method. -/
def GoError.Error : GoError → String
  | .base msg => msg
  | .wrap msg _ => msg

/-- The function `errors.Unwrap`: the wrapped error, nil when there is none. -/
def GoError.Unwrap : GoError → Option GoError
  | .base _ => none
  | .wrap _ inner => some inner

/-- The function `errors.Is(err, target)`: `target` occurs on the unwrap chain of `err`. -/
def GoError.Is : GoError → GoError → Bool
  | .base msg, target => decide (GoError.base msg = target)
  | .wrap msg inner, target => decide (GoError.wrap msg inner = target) || inner.Is target

/-- The call `fmt.Errorf(format ++ "%w", err)`: the message is the format text followed by
`err.Error()`, and the result unwraps to `err`. -/
def Errorf_w (format : String) (err : GoError) : GoError :=
  .wrap (format ++ err.Error) err

/-- The type `model.BotEventType` (a string type). -/
abbrev EventType := String

/-- A dynamic value stored in a `hub.Fields` map (`interface{}`): the nil
interface, a `model.UserGroup` value, or a value of some other dynamic type. -/
inductive Value (UserGroup : Type) where
  | nil
  | userGroup (g : UserGroup)
  | userGroupPtr (g : UserGroup)
  | str (s : String)
  | int (n : Int)
  | bool (b : Bool)

/-- The type `hub.Fields`, i.e. `map[string]interface{}`. -/
abbrev Fields (UserGroup : Type) := String → Option (Value UserGroup)

/-- Map indexing `fields[key]`: a missing key yields the zero value, the nil
interface. -/
def Fields.index {UserGroup : Type} (fields : Fields UserGroup) (key : String) :
    Value UserGroup :=
  match fields key with
  | some v => v
  | none => .nil

/-- The single-result type assertion `v.(model.UserGroup)`: `none` stands for the
run-time panic raised when the dynamic type is not `model.UserGroup`. -/
def assertUserGroup {UserGroup : Type} : Value UserGroup → Option UserGroup
  | .userGroup g => some g
  | _ => none

/-- The two collaborator methods of the `Context` interface that the handler
uses.  `W` is the state of the world behind the interface, so results may depend
on earlier calls.  `GetBots` returns Go's result pair `([]*model.Bot, error)`. -/
structure Context (W Bot Payload : Type) where
  GetBots : EventType → W → (List Bot × Option GoError) × W
  Multicast : EventType → Payload → List Bot → W → Option GoError × W

/-- What the handler imports from packages `event` and `payload`: the event kind
constant `event.UserGroupDeleted` and the constructor
`payload.MakeUserGroupDeleted`.  Both are declared outside the handler file and
are left open. -/
structure Imports (Time UserGroup Payload : Type) where
  UserGroupDeleted : EventType
  MakeUserGroupDeleted : Time → UserGroup → Payload

/-- One recorded call of a `Context` method, with its arguments. -/
inductive Call (Bot Payload : Type) where
  | GetBots (ev : EventType)
  | Multicast (ev : EventType) (p : Payload) (targets : List Bot)

/-- The state threaded through a run: the world behind the `Context` and the log
of `Context` calls made so far, oldest first. -/
structure Run (W Bot Payload : Type) where
  world : W
  calls : List (Call Bot Payload)

/-- How a handler invocation ends: with a panic, or by returning an `error`
(`none` is nil). -/
inductive Outcome where
  | panicked
  | returned (err : Option GoError)
  deriving DecidableEq, Repr

/-- Number of `GetBots` calls in a log. -/
def getBotsCalls {Bot Payload : Type} : List (Call Bot Payload) → Nat
  | [] => 0
  | .GetBots _ :: rest => getBotsCalls rest + 1
  | .Multicast _ _ _ :: rest => getBotsCalls rest

/-- Number of `Multicast` calls in a log. -/
def multicastCalls {Bot Payload : Type} : List (Call Bot Payload) → Nat
  | [] => 0
  | .GetBots _ :: rest => multicastCalls rest
  | .Multicast _ _ _ :: rest => multicastCalls rest + 1

/-- The method call `ctx.GetBots(ev)`: runs the collaborator and logs the call. -/
def Context.callGetBots {W Bot Payload : Type} (ctx : Context W Bot Payload)
    (ev : EventType) (s : Run W Bot Payload) :
    (List Bot × Option GoError) × Run W Bot Payload :=
  ((ctx.GetBots ev s.world).1,
   { world := (ctx.GetBots ev s.world).2, calls := s.calls ++ [.GetBots ev] })

/-- The method call `ctx.Multicast(ev, p, targets)`: runs the collaborator and
logs the call. -/
def Context.callMulticast {W Bot Payload : Type} (ctx : Context W Bot Payload)
    (ev : EventType) (p : Payload) (targets : List Bot) (s : Run W Bot Payload) :
    Option GoError × Run W Bot Payload :=
  ((ctx.Multicast ev p targets s.world).1,
   { world := (ctx.Multicast ev p targets s.world).2,
     calls := s.calls ++ [.Multicast ev p targets] })

/-- The handler `UserGroupDeleted(ctx, datetime, _, fields)`, statement by
statement. -/
def UserGroupDeleted {W Time UserGroup Bot Payload : Type}
    (imp : Imports Time UserGroup Payload) (ctx : Context W Bot Payload)
    (datetime : Time) (_topic : String) (fields : Fields UserGroup)
    (s : Run W Bot Payload) : Outcome × Run W Bot Payload :=
  -- group := fields["group"].(model.UserGroup)
  match assertUserGroup (fields.index "group") with
  | none => (.panicked, s)
  | some group =>
    -- bots, err := ctx.GetBots(event.UserGroupDeleted)
    match ctx.callGetBots imp.UserGroupDeleted s with
    | ((bots, err), s1) =>
      match err with
      | some e => (.returned (some (Errorf_w "failed to GetBots: " e)), s1)
      | none =>
        if bots.length = 0 then (.returned none, s1)
        else
          match ctx.callMulticast imp.UserGroupDeleted
              (imp.MakeUserGroupDeleted datetime group) bots s1 with
          | (some e, s2) => (.returned (some (Errorf_w "failed to multicast: " e)), s2)
          | (none, s2) => (.returned none, s2)

/-! ### Sample collaborators, used to instantiate the results below -/

/-- Sample imports: times are numbers, groups are names, and the payload records
both constructor arguments. -/
def sampleImports : Imports Nat String (Nat × String) where
  UserGroupDeleted := "USER_GROUP_DELETED"
  MakeUserGroupDeleted := fun t g => (t, g)

/-- A sample `Context` whose methods return fixed results and count, in the
world state, how often they have been called. -/
def sampleCtx (bots : List String) (getErr mcErr : Option GoError) :
    Context Nat String (Nat × String) where
  GetBots := fun _ w => ((bots, getErr), w + 1)
  Multicast := fun _ _ _ w => (mcErr, w + 1)

/-- A fields map holding a `model.UserGroup` under `"group"`. -/
def sampleFields : Fields String :=
  fun k => if k = "group" then some (.userGroup "staff") else none

/-- A fields map holding a pointer to a user group under `"group"`. -/
def pointerFields : Fields String :=
  fun k => if k = "group" then some (.userGroupPtr "staff") else none

/-- The empty fields map. -/
def emptyFields : Fields String := fun _ => none

/-- A fresh run: world counter zero, no calls logged. -/
def freshRun : Run Nat String (Nat × String) := { world := 0, calls := [] }

end bot

/-! ## Auxiliary facts -/

namespace permission

theorem catalog_nodup {d : Decls} (h : UniqueNames d) : (catalog d).Nodup :=
  List.Nodup.of_map _ h

theorem decls_nodup {d : Decls} (h : UniqueNames d) : d.toList.Nodup :=
  (List.nodup_append.mp (catalog_nodup h)).2.1

theorem stamp_not_mem_decls {d : Decls} (h : UniqueNames d) {p : Permission}
    (hp : p ∈ stampPermissions) : p ∉ d.toList := fun hq =>
  (List.nodup_append.mp (catalog_nodup h)).2.2 hp hq

end permission

namespace role

open permission

theorem readPerms_perm (d : Decls) : List.Perm (readPerms d) (GetStamp :: d.toList) := by
  have h : readPerms d =
      [d.GetChannel, d.GetMessage, d.GetChannelSubscription, d.ConnectNotificationStream,
       d.GetUser, d.GetMe, d.GetChannelStar, d.GetUnread, d.GetUserTag, d.GetUserGroup]
      ++ GetStamp ::
      [d.GetMyStampHistory, d.DownloadFile, d.GetHeartbeat, d.GetWebhook, d.GetBot,
       d.GetClipFolder, d.GetStampPalette] := rfl
  rw [h]
  exact List.perm_middle

theorem mem_readPerms {d : Decls} {p : Permission} :
    p ∈ readPerms d ↔ p = GetStamp ∨ p ∈ d.toList := by
  rw [(readPerms_perm d).mem_iff, List.mem_cons]

theorem stamp_mem_readPerms {d : Decls} (h : UniqueNames d) {p : Permission}
    (hp : p ∈ stampPermissions) : p ∈ readPerms d ↔ p = GetStamp := by
  rw [mem_readPerms]
  constructor
  · rintro (h1 | h2)
    · exact h1
    · exact absurd h2 (stamp_not_mem_decls h hp)
  · exact Or.inl

theorem readPerms_nodup {d : Decls} (h : UniqueNames d) : (readPerms d).Nodup := by
  rw [(readPerms_perm d).nodup_iff, List.nodup_cons]
  exact ⟨stamp_not_mem_decls h (by decide), decls_nodup h⟩

end role

theorem IsAllowed_of_lookup {registry : List Role} {roleName : String} {r : Role}
    (h : RoleLookup registry roleName = some r) (permissionName : String) :
    IsAllowed registry roleName permissionName = decide (⟨permissionName⟩ ∈ r.perms) := by
  simp [IsAllowed, h, HasPermission]

theorem RoleLookup_eq_none {registry : List Role} {roleName : String}
    (h : ∀ r ∈ registry, r.name ≠ roleName) : RoleLookup registry roleName = none := by
  simp only [RoleLookup, List.find?_eq_none]
  intro r hr
  simpa using h r hr

namespace bot

theorem GoError.Is_self (e : GoError) : e.Is e = true := by
  cases e <;> simp [GoError.Is]

theorem Errorf_w_Unwrap (format : String) (e : GoError) :
    (Errorf_w format e).Unwrap = some e := rfl

theorem Errorf_w_Is (format : String) (e : GoError) : (Errorf_w format e).Is e = true := by
  simp [Errorf_w, GoError.Is, GoError.Is_self]

theorem getBotsCalls_append {Bot Payload : Type} (l1 l2 : List (Call Bot Payload)) :
    getBotsCalls (l1 ++ l2) = getBotsCalls l1 + getBotsCalls l2 := by
  induction l1 with
  | nil => simp [getBotsCalls]
  | cons c rest ih =>
    cases c
    · simp [getBotsCalls, ih]; omega
    · simp [getBotsCalls, ih]

theorem multicastCalls_append {Bot Payload : Type} (l1 l2 : List (Call Bot Payload)) :
    multicastCalls (l1 ++ l2) = multicastCalls l1 + multicastCalls l2 := by
  induction l1 with
  | nil => simp [multicastCalls]
  | cons c rest ih =>
    cases c
    · simp [multicastCalls, ih]
    · simp [multicastCalls, ih]; omega

/-- The handler past a successful type assertion: what remains is the `GetBots`
call and the branches on its result. -/
theorem UserGroupDeleted_of_group {W Time UserGroup Bot Payload : Type}
    (imp : Imports Time UserGroup Payload) (ctx : Context W Bot Payload)
    (datetime : Time) (topic : String) (fields : Fields UserGroup)
    (s : Run W Bot Payload) (g : UserGroup) (bots : List Bot) (err : Option GoError) (w1 : W)
    (hg : fields "group" = some (.userGroup g))
    (hb : ctx.GetBots imp.UserGroupDeleted s.world = ((bots, err), w1)) :
    UserGroupDeleted imp ctx datetime topic fields s =
      match err with
      | some e =>
        (.returned (some (Errorf_w "failed to GetBots: " e)),
         { world := w1, calls := s.calls ++ [.GetBots imp.UserGroupDeleted] })
      | none =>
        if bots.length = 0 then
          (.returned none, { world := w1, calls := s.calls ++ [.GetBots imp.UserGroupDeleted] })
        else
          match (ctx.Multicast imp.UserGroupDeleted
              (imp.MakeUserGroupDeleted datetime g) bots w1).1 with
          | some e =>
            (.returned (some (Errorf_w "failed to multicast: " e)),
             { world := (ctx.Multicast imp.UserGroupDeleted
                 (imp.MakeUserGroupDeleted datetime g) bots w1).2,
               calls := s.calls ++ [.GetBots imp.UserGroupDeleted,
                 .Multicast imp.UserGroupDeleted (imp.MakeUserGroupDeleted datetime g) bots] })
          | none =>
            (.returned none,
             { world := (ctx.Multicast imp.UserGroupDeleted
                 (imp.MakeUserGroupDeleted datetime g) bots w1).2,
               calls := s.calls ++ [.GetBots imp.UserGroupDeleted,
                 .Multicast imp.UserGroupDeleted (imp.MakeUserGroupDeleted datetime g) bots] }) := by
  simp only [UserGroupDeleted, Fields.index, hg, assertUserGroup, Context.callGetBots, hb]
  cases err with
  | some e => rfl
  | none =>
    simp only
    split
    · rfl
    · simp only [Context.callMulticast]
      rcases hm : ctx.Multicast imp.UserGroupDeleted
        (imp.MakeUserGroupDeleted datetime g) bots w1 with ⟨merr, w2⟩
      cases merr <;> simp

/-- The handler when the type assertion fails: it panics at once. -/
theorem UserGroupDeleted_of_no_group {W Time UserGroup Bot Payload : Type}
    (imp : Imports Time UserGroup Payload) (ctx : Context W Bot Payload)
    (datetime : Time) (topic : String) (fields : Fields UserGroup)
    (s : Run W Bot Payload) (hg : ∀ g, fields "group" ≠ some (.userGroup g)) :
    UserGroupDeleted imp ctx datetime topic fields s = (.panicked, s) := by
  have h : assertUserGroup (fields.index "group") = none := by
    unfold Fields.index
    rcases hf : fields "group" with _ | v
    · rfl
    · cases v with
      | userGroup g => exact absurd hf (hg g)
      | _ => rfl
  simp only [UserGroupDeleted, h]

end bot

/-! ## Access control results -/

open permission

/-- C1: the role Read includes GetStamp but not CreateStamp.  Whenever the
catalog names are unique and the role registry maps the name `Read` to the role
built from `readPerms`, `GetStamp` is an entry of `readPerms` and `CreateStamp`
is not, so `IsAllowed` answers true for `Read` with `GetStamp` and false for
`Read` with `CreateStamp`. -/
theorem read_allows_GetStamp_not_CreateStamp (d : Decls) (registry : List Role)
    (hu : UniqueNames d) (hreg : RoleLookup registry role.Read = some (readRole d)) :
    GetStamp ∈ role.readPerms d ∧ CreateStamp ∉ role.readPerms d ∧
    IsAllowed registry role.Read GetStamp.name = true ∧
    IsAllowed registry role.Read CreateStamp.name = false := by
  have hg : GetStamp ∈ role.readPerms d := role.mem_readPerms.mpr (Or.inl rfl)
  have hc : CreateStamp ∉ role.readPerms d := fun h =>
    absurd ((role.stamp_mem_readPerms hu (by decide)).mp h) (by decide)
  refine ⟨hg, hc, ?_, ?_⟩
  · rw [IsAllowed_of_lookup hreg]
    exact decide_eq_true hg
  · rw [IsAllowed_of_lookup hreg]
    exact decide_eq_false hc

/-- Instance of C1 at the sample declarations, with a registry holding only the
role Read. -/
theorem read_allows_GetStamp_not_CreateStamp_witness :
    UniqueNames sampleDecls ∧
    RoleLookup [readRole sampleDecls] role.Read = some (readRole sampleDecls) ∧
    (GetStamp ∈ role.readPerms sampleDecls ∧ CreateStamp ∉ role.readPerms sampleDecls ∧
     IsAllowed [readRole sampleDecls] role.Read GetStamp.name = true ∧
     IsAllowed [readRole sampleDecls] role.Read CreateStamp.name = false) :=
  ⟨by decide, by decide,
   read_allows_GetStamp_not_CreateStamp sampleDecls [readRole sampleDecls]
     (by decide) (by decide)⟩

/-- C5: the access decision fails closed on an unknown role.  For a role name
that no registered role carries, `IsAllowed` returns false for every permission
name (it is a total boolean function, so no error is raised); in particular
`"ghost"` is not the name of the role Read, and with Read registered `IsAllowed`
answers false for `"ghost"` with `GetStamp`. -/
theorem IsAllowed_unknown_role_denied (d : Decls) (registry : List Role) (roleName : String)
    (h : ∀ r ∈ registry, r.name ≠ roleName) :
    (∀ permissionName, IsAllowed registry roleName permissionName = false) ∧
    "ghost" ≠ role.Read ∧
    (∀ permissionName, IsAllowed [readRole d] "ghost" permissionName = false) ∧
    IsAllowed [readRole d] "ghost" GetStamp.name = false := by
  have key : ∀ (reg : List Role) (n : String), (∀ r ∈ reg, r.name ≠ n) →
      ∀ q, IsAllowed reg n q = false := by
    intro reg n hn q
    simp [IsAllowed, RoleLookup_eq_none hn]
  have hghost : ∀ r ∈ [readRole d], r.name ≠ "ghost" := by
    intro r hr
    rw [List.mem_singleton] at hr
    subst hr
    show role.Read ≠ "ghost"
    decide
  exact ⟨key registry roleName h, by decide, key _ _ hghost, key _ _ hghost _⟩

/-- Instance of C5: the name `"ghost"` against a registry holding only Read. -/
theorem IsAllowed_unknown_role_denied_witness :
    (∀ r ∈ [readRole sampleDecls], r.name ≠ "ghost") ∧
    IsAllowed [readRole sampleDecls] "ghost" "get_stamp" = false :=
  ⟨by decide,
   (IsAllowed_unknown_role_denied sampleDecls [readRole sampleDecls] "ghost"
     (by decide)).1 "get_stamp"⟩

/-- C6: permission names are unique in the stamp catalog.  The seven stamp
permissions have pairwise distinct identifier strings, so a lookup by the name of
a catalog permission returns that permission, and no other catalog permission
carries that name. -/
theorem stamp_names_unique :
    stampPermissions.length = 7 ∧
    (stampPermissions.map Permission.name).Nodup ∧
    (∀ p ∈ stampPermissions, Lookup stampPermissions p.name = some p) ∧
    (∀ p ∈ stampPermissions, ∀ q ∈ stampPermissions, q.name = p.name → q = p) := by
  decide

/-- C7: the permission list of the role Read has set semantics.  Whenever the
catalog names are unique, `readPerms` has 18 entries, none occurring twice (as
values and as identifier strings), so every permission of the role occurs exactly
once, and any list with the same members, in whatever order and multiplicity,
gives the same membership answers. -/
theorem readPerms_set_semantics (d : Decls) (hu : UniqueNames d) :
    (role.readPerms d).length = 18 ∧
    (role.readPerms d).Nodup ∧
    ((role.readPerms d).map Permission.name).Nodup ∧
    (∀ p ∈ role.readPerms d, (role.readPerms d).count p = 1) ∧
    (∀ l : List Permission, (∀ p, p ∈ l ↔ p ∈ role.readPerms d) →
      ∀ p, HasPermission (DefineRole role.Read l) p = HasPermission (readRole d) p) := by
  have hnd := role.readPerms_nodup hu
  have hinj : Function.Injective Permission.name := by
    intro a b hab
    cases a
    cases b
    simpa using hab
  refine ⟨rfl, hnd, hnd.map hinj, ?_, ?_⟩
  · intro p hp
    exact List.count_eq_one_of_mem hnd hp
  · intro l hl p
    simp [HasPermission, DefineRole, readRole, hl p]

/-- Instance of C7 at the sample declarations. -/
theorem readPerms_set_semantics_witness :
    UniqueNames sampleDecls ∧ (role.readPerms sampleDecls).length = 18 ∧
    (role.readPerms sampleDecls).Nodup :=
  ⟨by decide, (readPerms_set_semantics sampleDecls (by decide)).1,
   (readPerms_set_semantics sampleDecls (by decide)).2.1⟩

/-- C8: the role Read is read-only with respect to stamps.  Whenever the catalog
names are unique, none of CreateStamp, EditStamp, DeleteStamp, AddMessageStamp
and RemoveMessageStamp is an entry of `readPerms`. -/
theorem readPerms_no_mutating_stamp (d : Decls) (hu : UniqueNames d) :
    CreateStamp ∉ role.readPerms d ∧ EditStamp ∉ role.readPerms d ∧
    DeleteStamp ∉ role.readPerms d ∧ AddMessageStamp ∉ role.readPerms d ∧
    RemoveMessageStamp ∉ role.readPerms d := by
  have key : ∀ p ∈ stampPermissions, p ≠ GetStamp → p ∉ role.readPerms d :=
    fun p hp hne h => hne ((role.stamp_mem_readPerms hu hp).mp h)
  exact ⟨key _ (by decide) (by decide), key _ (by decide) (by decide),
    key _ (by decide) (by decide), key _ (by decide) (by decide),
    key _ (by decide) (by decide)⟩

/-- Instance of C8 at the sample declarations. -/
theorem readPerms_no_mutating_stamp_witness :
    UniqueNames sampleDecls ∧
    (CreateStamp ∉ role.readPerms sampleDecls ∧ EditStamp ∉ role.readPerms sampleDecls ∧
     DeleteStamp ∉ role.readPerms sampleDecls ∧ AddMessageStamp ∉ role.readPerms sampleDecls ∧
     RemoveMessageStamp ∉ role.readPerms sampleDecls) :=
  ⟨by decide, readPerms_no_mutating_stamp sampleDecls (by decide)⟩

/-! ## Handler results -/

open bot

/-- C2: a failing bot lookup aborts the event.  For every context, time, topic
and fields map carrying a user group under `"group"`: if `GetBots` returns an
error `e`, the handler returns the non-nil error built by wrapping `e` (unwrapping
it gives `e` back, and `errors.Is` finds `e`), `GetBots` has been called exactly
once, and `Multicast` has not been called. -/
theorem UserGroupDeleted_GetBots_error {W Time UserGroup Bot Payload : Type}
    (imp : Imports Time UserGroup Payload) (ctx : Context W Bot Payload)
    (datetime : Time) (topic : String) (fields : Fields UserGroup)
    (s : Run W Bot Payload) (g : UserGroup) (e : GoError)
    (hg : fields "group" = some (.userGroup g))
    (herr : (ctx.GetBots imp.UserGroupDeleted s.world).1.2 = some e) :
    (UserGroupDeleted imp ctx datetime topic fields s).1
      = .returned (some (Errorf_w "failed to GetBots: " e)) ∧
    (Errorf_w "failed to GetBots: " e).Unwrap = some e ∧
    (Errorf_w "failed to GetBots: " e).Is e = true ∧
    (UserGroupDeleted imp ctx datetime topic fields s).2.calls
      = s.calls ++ [.GetBots imp.UserGroupDeleted] ∧
    getBotsCalls (UserGroupDeleted imp ctx datetime topic fields s).2.calls
      = getBotsCalls s.calls + 1 ∧
    multicastCalls (UserGroupDeleted imp ctx datetime topic fields s).2.calls
      = multicastCalls s.calls := by
  rcases hb : ctx.GetBots imp.UserGroupDeleted s.world with ⟨⟨bots, err⟩, w1⟩
  rw [hb] at herr
  simp only at herr
  subst herr
  rw [UserGroupDeleted_of_group imp ctx datetime topic fields s g bots _ w1 hg hb]
  refine ⟨rfl, rfl, Errorf_w_Is _ e, rfl, ?_, ?_⟩
  · simp [getBotsCalls_append, getBotsCalls]
  · simp [multicastCalls_append, multicastCalls]

/-- Instance of C2: the sample context whose bot lookup fails with `db down`. -/
theorem UserGroupDeleted_GetBots_error_witness :
    sampleFields "group" = some (.userGroup "staff") ∧
    ((sampleCtx ["b1"] (some (.base "db down")) none).GetBots
      sampleImports.UserGroupDeleted freshRun.world).1.2 = some (.base "db down") ∧
    (UserGroupDeleted sampleImports (sampleCtx ["b1"] (some (.base "db down")) none)
      7 "topic" sampleFields freshRun).1
      = .returned (some (.wrap "failed to GetBots: db down" (.base "db down"))) :=
  ⟨rfl, rfl,
   (UserGroupDeleted_GetBots_error sampleImports
     (sampleCtx ["b1"] (some (.base "db down")) none) 7 "topic" sampleFields freshRun
     "staff" (.base "db down") rfl rfl).1⟩

/-- C3: delivery to the subscribed bots.  For every call in which `GetBots`
succeeds with a non-empty list `bots`, the handler calls `Multicast` exactly once,
after `GetBots`, with the event kind `event.UserGroupDeleted`, the payload
`MakeUserGroupDeleted(datetime, group)` built from its own `datetime` argument and
the group stored under `"group"`, and exactly the list `bots`; if that call
returns nil, the handler returns nil.  The call really runs: the world the
handler leaves behind is the one that `Multicast` call produced from the world
after `GetBots`, and the value returned is that call's result, nil for nil and
the wrapped error otherwise. -/
theorem UserGroupDeleted_multicast_once {W Time UserGroup Bot Payload : Type}
    (imp : Imports Time UserGroup Payload) (ctx : Context W Bot Payload)
    (datetime : Time) (topic : String) (fields : Fields UserGroup)
    (s : Run W Bot Payload) (g : UserGroup) (bots : List Bot)
    (hg : fields "group" = some (.userGroup g))
    (hok : (ctx.GetBots imp.UserGroupDeleted s.world).1 = (bots, none))
    (hne : bots ≠ []) :
    (UserGroupDeleted imp ctx datetime topic fields s).2.calls
      = s.calls ++ [.GetBots imp.UserGroupDeleted,
          .Multicast imp.UserGroupDeleted (imp.MakeUserGroupDeleted datetime g) bots] ∧
    multicastCalls (UserGroupDeleted imp ctx datetime topic fields s).2.calls
      = multicastCalls s.calls + 1 ∧
    ((ctx.Multicast imp.UserGroupDeleted (imp.MakeUserGroupDeleted datetime g) bots
        (ctx.GetBots imp.UserGroupDeleted s.world).2).1 = none →
      (UserGroupDeleted imp ctx datetime topic fields s).1 = .returned none) ∧
    (UserGroupDeleted imp ctx datetime topic fields s).2.world
      = (ctx.Multicast imp.UserGroupDeleted (imp.MakeUserGroupDeleted datetime g) bots
          (ctx.GetBots imp.UserGroupDeleted s.world).2).2 ∧
    (UserGroupDeleted imp ctx datetime topic fields s).1
      = .returned (Option.map (Errorf_w "failed to multicast: ")
          (ctx.Multicast imp.UserGroupDeleted (imp.MakeUserGroupDeleted datetime g) bots
            (ctx.GetBots imp.UserGroupDeleted s.world).2).1) ∧
    getBotsCalls (UserGroupDeleted imp ctx datetime topic fields s).2.calls
      = getBotsCalls s.calls + 1 := by
  rcases hb : ctx.GetBots imp.UserGroupDeleted s.world with ⟨⟨bots1, err⟩, w1⟩
  rw [hb] at hok
  simp only [Prod.mk.injEq] at hok
  obtain ⟨rfl, rfl⟩ := hok
  have hlen : ¬ bots1.length = 0 := fun h => hne (List.length_eq_zero.mp h)
  rw [UserGroupDeleted_of_group imp ctx datetime topic fields s g bots1 _ w1 hg hb]
  simp only [hlen, if_false]
  rcases hm : (ctx.Multicast imp.UserGroupDeleted
    (imp.MakeUserGroupDeleted datetime g) bots1 w1).1 with _ | e
  · refine ⟨rfl, ?_, fun _ => rfl, rfl, rfl, ?_⟩
    · simp [multicastCalls_append, multicastCalls]
    · simp [getBotsCalls_append, getBotsCalls]
  · refine ⟨rfl, ?_, fun h => ?_, rfl, rfl, ?_⟩
    · simp [multicastCalls_append, multicastCalls]
    · simp at h
    · simp [getBotsCalls_append, getBotsCalls]

/-- Instance of C3: two subscribed bots and a multicast that succeeds; the world
counter ends at two, one step for `GetBots` and one for `Multicast`. -/
theorem UserGroupDeleted_multicast_once_witness :
    sampleFields "group" = some (.userGroup "staff") ∧
    ((sampleCtx ["b1", "b2"] none none).GetBots
      sampleImports.UserGroupDeleted freshRun.world).1 = (["b1", "b2"], none) ∧
    (UserGroupDeleted sampleImports (sampleCtx ["b1", "b2"] none none)
      7 "topic" sampleFields freshRun).2.calls
      = [.GetBots "USER_GROUP_DELETED",
         .Multicast "USER_GROUP_DELETED" (7, "staff") ["b1", "b2"]] ∧
    (UserGroupDeleted sampleImports (sampleCtx ["b1", "b2"] none none)
      7 "topic" sampleFields freshRun).1 = .returned none ∧
    (UserGroupDeleted sampleImports (sampleCtx ["b1", "b2"] none none)
      7 "topic" sampleFields freshRun).2.world = 2 :=
  ⟨rfl, rfl,
   (UserGroupDeleted_multicast_once sampleImports (sampleCtx ["b1", "b2"] none none)
     7 "topic" sampleFields freshRun "staff" ["b1", "b2"] rfl rfl (by simp)).1,
   (UserGroupDeleted_multicast_once sampleImports (sampleCtx ["b1", "b2"] none none)
     7 "topic" sampleFields freshRun "staff" ["b1", "b2"] rfl rfl (by simp)).2.2.1 rfl,
   (UserGroupDeleted_multicast_once sampleImports (sampleCtx ["b1", "b2"] none none)
     7 "topic" sampleFields freshRun "staff" ["b1", "b2"] rfl rfl (by simp)).2.2.2.1⟩

/-- C4: multicast is a single failable step.  For every call in which `GetBots`
succeeds with a non-empty list and `Multicast` returns an error `e`, the handler
returns the non-nil error built by wrapping `e` (unwrapping it gives `e` back),
and `Multicast` has been called exactly once: the log gains one `GetBots` call
followed by one `Multicast` call carrying the whole list. -/
theorem UserGroupDeleted_multicast_error {W Time UserGroup Bot Payload : Type}
    (imp : Imports Time UserGroup Payload) (ctx : Context W Bot Payload)
    (datetime : Time) (topic : String) (fields : Fields UserGroup)
    (s : Run W Bot Payload) (g : UserGroup) (bots : List Bot) (e : GoError)
    (hg : fields "group" = some (.userGroup g))
    (hok : (ctx.GetBots imp.UserGroupDeleted s.world).1 = (bots, none))
    (hne : bots ≠ [])
    (hm : (ctx.Multicast imp.UserGroupDeleted (imp.MakeUserGroupDeleted datetime g) bots
        (ctx.GetBots imp.UserGroupDeleted s.world).2).1 = some e) :
    (UserGroupDeleted imp ctx datetime topic fields s).1
      = .returned (some (Errorf_w "failed to multicast: " e)) ∧
    (Errorf_w "failed to multicast: " e).Unwrap = some e ∧
    (Errorf_w "failed to multicast: " e).Is e = true ∧
    (UserGroupDeleted imp ctx datetime topic fields s).2.calls
      = s.calls ++ [.GetBots imp.UserGroupDeleted,
          .Multicast imp.UserGroupDeleted (imp.MakeUserGroupDeleted datetime g) bots] ∧
    multicastCalls (UserGroupDeleted imp ctx datetime topic fields s).2.calls
      = multicastCalls s.calls + 1 ∧
    getBotsCalls (UserGroupDeleted imp ctx datetime topic fields s).2.calls
      = getBotsCalls s.calls + 1 := by
  rcases hb : ctx.GetBots imp.UserGroupDeleted s.world with ⟨⟨bots1, err⟩, w1⟩
  rw [hb] at hok hm
  simp only [Prod.mk.injEq] at hok
  obtain ⟨rfl, rfl⟩ := hok
  simp only at hm
  have hlen : ¬ bots1.length = 0 := fun h => hne (List.length_eq_zero.mp h)
  have key := UserGroupDeleted_of_group imp ctx datetime topic fields s g bots1 _ w1 hg hb
  simp only [hlen, if_false, hm] at key
  rw [key]
  refine ⟨rfl, rfl, Errorf_w_Is _ e, rfl, ?_, ?_⟩
  · simp [multicastCalls_append, multicastCalls]
  · simp [getBotsCalls_append, getBotsCalls]

/-- Instance of C4: two subscribed bots and a multicast failing with `timeout`. -/
theorem UserGroupDeleted_multicast_error_witness :
    sampleFields "group" = some (.userGroup "staff") ∧
    ((sampleCtx ["b1", "b2"] none (some (.base "timeout"))).GetBots
      sampleImports.UserGroupDeleted freshRun.world).1 = (["b1", "b2"], none) ∧
    (UserGroupDeleted sampleImports (sampleCtx ["b1", "b2"] none (some (.base "timeout")))
      7 "topic" sampleFields freshRun).1
      = .returned (some (.wrap "failed to multicast: timeout" (.base "timeout"))) ∧
    multicastCalls (UserGroupDeleted sampleImports
      (sampleCtx ["b1", "b2"] none (some (.base "timeout")))
      7 "topic" sampleFields freshRun).2.calls = 1 :=
  ⟨rfl, rfl,
   (UserGroupDeleted_multicast_error sampleImports
     (sampleCtx ["b1", "b2"] none (some (.base "timeout")))
     7 "topic" sampleFields freshRun "staff" ["b1", "b2"] (.base "timeout")
     rfl rfl (by simp) rfl).1,
   (UserGroupDeleted_multicast_error sampleImports
     (sampleCtx ["b1", "b2"] none (some (.base "timeout")))
     7 "topic" sampleFields freshRun "staff" ["b1", "b2"] (.base "timeout")
     rfl rfl (by simp) rfl).2.2.2.2.1⟩

/-- C9: with no subscribed bot the handler is a no-op.  For every call in which
`GetBots` succeeds with an empty list, the handler returns nil and `Multicast` is
never called: the log gains the one `GetBots` call and nothing else, and the
world is the one `GetBots` left behind. -/
theorem UserGroupDeleted_no_bots {W Time UserGroup Bot Payload : Type}
    (imp : Imports Time UserGroup Payload) (ctx : Context W Bot Payload)
    (datetime : Time) (topic : String) (fields : Fields UserGroup)
    (s : Run W Bot Payload) (g : UserGroup)
    (hg : fields "group" = some (.userGroup g))
    (hok : (ctx.GetBots imp.UserGroupDeleted s.world).1 = ([], none)) :
    (UserGroupDeleted imp ctx datetime topic fields s).1 = .returned none ∧
    (UserGroupDeleted imp ctx datetime topic fields s).2.calls
      = s.calls ++ [.GetBots imp.UserGroupDeleted] ∧
    multicastCalls (UserGroupDeleted imp ctx datetime topic fields s).2.calls
      = multicastCalls s.calls ∧
    (UserGroupDeleted imp ctx datetime topic fields s).2.world
      = (ctx.GetBots imp.UserGroupDeleted s.world).2 := by
  rcases hb : ctx.GetBots imp.UserGroupDeleted s.world with ⟨⟨bots1, err⟩, w1⟩
  rw [hb] at hok
  simp only [Prod.mk.injEq] at hok
  obtain ⟨rfl, rfl⟩ := hok
  rw [UserGroupDeleted_of_group imp ctx datetime topic fields s g [] _ w1 hg hb]
  refine ⟨rfl, rfl, ?_, rfl⟩
  simp [multicastCalls_append, multicastCalls]

/-- Instance of C9: the sample context with no subscribed bot. -/
theorem UserGroupDeleted_no_bots_witness :
    sampleFields "group" = some (.userGroup "staff") ∧
    ((sampleCtx [] none none).GetBots sampleImports.UserGroupDeleted freshRun.world).1
      = ([], none) ∧
    (UserGroupDeleted sampleImports (sampleCtx [] none none)
      7 "topic" sampleFields freshRun).1 = .returned none ∧
    (UserGroupDeleted sampleImports (sampleCtx [] none none)
      7 "topic" sampleFields freshRun).2.calls = [.GetBots "USER_GROUP_DELETED"] :=
  ⟨rfl, rfl,
   (UserGroupDeleted_no_bots sampleImports (sampleCtx [] none none)
     7 "topic" sampleFields freshRun "staff" rfl rfl).1,
   (UserGroupDeleted_no_bots sampleImports (sampleCtx [] none none)
     7 "topic" sampleFields freshRun "staff" rfl rfl).2.1⟩

/-- C10: the type assertion on the entry under `"group"` is the only step of the
handler that can panic, and it comes first.  For every context (every outcome of
`GetBots` and `Multicast`): when the entry holds a user group the handler returns,
with nil or an error; when it does not, the handler panics with the run state
untouched, so no collaborator has been called, whatever `GetBots` would have
answered; and a panic occurs in exactly that case. -/
theorem UserGroupDeleted_panics_only_at_assertion {W Time UserGroup Bot Payload : Type}
    (imp : Imports Time UserGroup Payload) (ctx : Context W Bot Payload)
    (datetime : Time) (topic : String) (fields : Fields UserGroup)
    (s : Run W Bot Payload) :
    (∀ g, fields "group" = some (.userGroup g) →
      ∃ r, (UserGroupDeleted imp ctx datetime topic fields s).1 = .returned r) ∧
    ((∀ g, fields "group" ≠ some (.userGroup g)) →
      UserGroupDeleted imp ctx datetime topic fields s = (.panicked, s)) ∧
    ((UserGroupDeleted imp ctx datetime topic fields s).1 = .panicked ↔
      ∀ g, fields "group" ≠ some (.userGroup g)) := by
  have hret : ∀ g, fields "group" = some (.userGroup g) →
      ∃ r, (UserGroupDeleted imp ctx datetime topic fields s).1 = .returned r := by
    intro g hg
    rcases hb : ctx.GetBots imp.UserGroupDeleted s.world with ⟨⟨bots, err⟩, w1⟩
    rw [UserGroupDeleted_of_group imp ctx datetime topic fields s g bots err w1 hg hb]
    cases err with
    | some e => exact ⟨_, rfl⟩
    | none =>
      simp only
      split
      · exact ⟨_, rfl⟩
      · split <;> exact ⟨_, rfl⟩
  refine ⟨hret, UserGroupDeleted_of_no_group imp ctx datetime topic fields s, ?_, ?_⟩
  · intro hp g hg
    obtain ⟨r, hr⟩ := hret g hg
    rw [hr] at hp
    cases hp
  · intro hno
    rw [UserGroupDeleted_of_no_group imp ctx datetime topic fields s hno]

/-- Instance of C10: a map without `"group"`, and a map holding a pointer under
`"group"`, both against a context with no subscribed bot; and a map holding a
user group, which returns. -/
theorem UserGroupDeleted_panics_only_at_assertion_witness :
    UserGroupDeleted sampleImports (sampleCtx [] none none) 7 "topic" emptyFields freshRun
      = (.panicked, freshRun) ∧
    UserGroupDeleted sampleImports (sampleCtx [] none none) 7 "topic" pointerFields freshRun
      = (.panicked, freshRun) ∧
    (∃ r, (UserGroupDeleted sampleImports (sampleCtx ["b1"] none none) 7 "topic"
      sampleFields freshRun).1 = .returned r) :=
  ⟨(UserGroupDeleted_panics_only_at_assertion sampleImports (sampleCtx [] none none)
      7 "topic" emptyFields freshRun).2.1 (fun _ h => by cases h),
   (UserGroupDeleted_panics_only_at_assertion sampleImports (sampleCtx [] none none)
      7 "topic" pointerFields freshRun).2.1 (fun _ h => by simp [pointerFields] at h),
   (UserGroupDeleted_panics_only_at_assertion sampleImports (sampleCtx ["b1"] none none)
      7 "topic" sampleFields freshRun).1 "staff" rfl⟩

end TraQ
